import Mathlib

/-!
Shallow embedding of the QuickBooks OAuth token lifecycle core of the
landscaping-ai-app repository.

Sources embedded:
- `src/database.js`: the `quickbooks_tokens` table (UNIQUE(user_id)),
  `saveUserTokens` (INSERT ... ON CONFLICT (user_id) DO UPDATE) and
  `getUserTokens` (SELECT ... WHERE user_id = $1).
- `src/quickbooks-multi-tenant.js`: `getValidUserTokens` (the token
  lifecycle manager), the `/auth`, `/callback`, `/status` and
  `/company-info` routes.

Modelling conventions:
- Time is absolute milliseconds since the epoch, as a `Nat` (JS `Date`
  arithmetic is millisecond-integer arithmetic).
- The relational store is a list of rows; SELECT-by-user is `List.find?`.
- Network calls (the token endpoint, the resource API) are oracle
  functions passed in as parameters; handlers additionally report how
  many times each oracle was invoked, so "no network call" is provable.
- JS truthiness of optional query/env strings: absent or empty is falsy.
- The OAuth `state` parameter is modelled concretely: the JS code does
  `Buffer.from(JSON.stringify({userId, timestamp})).toString('base64')`
  on the way out and `JSON.parse(Buffer.from(state, 'base64').toString())`
  on the way back; we embed real base64 over byte lists, a decimal
  renderer for numbers, and a recursive-descent reader for flat JSON
  objects with numeric fields — the only shape the encoder emits, and
  the reader provably coincides with `JSON.parse` on that image.
  Because the reader is not `JSON.parse` on arbitrary strings, theorems
  about arbitrary (possibly attacker-supplied) callback states do not
  rely on it: the callback handler abstracts its decode step as a
  function parameter (`callbackHandlerWith`), exactly like the network
  oracles, and those theorems quantify over it.
-/

set_option maxRecDepth 4000

/-- One row of the `quickbooks_tokens` table (`src/database.js`, CREATE TABLE):
`user_id` (the tenant key, UNIQUE), `realm_id` (the external QuickBooks
company id), the token pair, and the three timestamps, in epoch ms. -/
structure TokenRecord where
  user_id : Nat
  realm_id : String
  access_token : String
  refresh_token : String
  expires_at : Nat
  created_at : Nat
  updated_at : Nat
deriving DecidableEq, Repr

/-- The `quickbooks_tokens` table contents. -/
abbrev TokenStore := List TokenRecord

/-- `db.getUserTokens(userId)`: `SELECT * FROM quickbooks_tokens WHERE
user_id = $1`, first row or null (`src/database.js` lines 232-243). -/
def getUserTokens (store : TokenStore) (userId : Nat) : Option TokenRecord :=
  store.find? (fun r => r.user_id == userId)

/-- `db.saveUserTokens(userId, realmId, accessToken, refreshToken, expiresIn)`
(`src/database.js` lines 206-230): computes
`expiresAt = Date.now() + expiresIn * 1000`, then
`INSERT ... ON CONFLICT (user_id) DO UPDATE SET realm_id, access_token,
refresh_token, expires_at, updated_at = CURRENT_TIMESTAMP RETURNING *`.
Returns the updated table and the returned row. On conflict the existing
row keeps its `created_at`. -/
def saveUserTokens (now : Nat) (store : TokenStore) (userId : Nat)
    (realmId accessToken refreshToken : String) (expiresIn : Nat) :
    TokenStore × TokenRecord :=
  let expiresAt := now + expiresIn * 1000
  match getUserTokens store userId with
  | some old =>
    let newRec : TokenRecord :=
      ⟨userId, realmId, accessToken, refreshToken, expiresAt, old.created_at, now⟩
    (store.map (fun r => if r.user_id == userId then newRec else r), newRec)
  | none =>
    let newRec : TokenRecord :=
      ⟨userId, realmId, accessToken, refreshToken, expiresAt, now, now⟩
    (store ++ [newRec], newRec)

/-- The `UNIQUE(user_id)` constraint of `quickbooks_tokens`: no two rows
share a `user_id`. -/
abbrev UniqueUsers (store : TokenStore) : Prop :=
  store.Pairwise (fun a b => a.user_id ≠ b.user_id)

/-- Outcome of a POST to the token endpoint
(`https://oauth.platform.intuit.com/oauth2/v1/tokens/bearer`): the JSON
triple `{access_token, refresh_token, expires_in}` on 2xx, or a thrown
axios error (non-2xx, transport failure or timeout all land in the same
`catch`). -/
inductive TokenResponse where
  | ok (access_token refresh_token : String) (expires_in : Nat)
  | err
deriving DecidableEq, Repr

/-- Result of `getValidUserTokens`: the returned row (or null), the
table afterwards, and how many refresh POSTs were made. -/
structure FetchResult where
  tokens : Option TokenRecord
  store : TokenStore
  refreshCalls : Nat
deriving DecidableEq, Repr

/-- `getValidUserTokens(userId)` (`src/quickbooks-multi-tenant.js` lines
30-78): load the row; if absent return null; if
`expires_at < now + 5 * 60000` POST a refresh and on success
`saveUserTokens(userId, tokens.realm_id, access_token, refresh_token,
expires_in)` then re-read and return the row, on any thrown error return
null leaving the table as it was; otherwise return the row unchanged. -/
def getValidUserTokens (now : Nat) (refresh : String → TokenResponse)
    (store : TokenStore) (userId : Nat) : FetchResult :=
  match getUserTokens store userId with
  | none => ⟨none, store, 0⟩
  | some tokens =>
    if tokens.expires_at < now + 5 * 60000 then
      match refresh tokens.refresh_token with
      | TokenResponse.err => ⟨none, store, 1⟩
      | TokenResponse.ok access_token refresh_token expires_in =>
        let store2 :=
          (saveUserTokens now store userId tokens.realm_id access_token
            refresh_token expires_in).1
        ⟨getUserTokens store2 userId, store2, 1⟩
    else ⟨some tokens, store, 0⟩

/-- JS truthiness of an optional string (query parameter or env var):
absent and `""` are falsy. -/
def truthy : Option String → Bool
  | none => false
  | some s => !s.isEmpty

/-- One row of the `users` table, the fields the callback page reads
(`src/database.js` getUserById, lines 191-202). -/
structure UserRecord where
  id : Nat
  email : String
  business_name : Option String
deriving DecidableEq, Repr

/-- `db.getUserById(userId)`: `SELECT ... FROM users WHERE id = $1`. -/
def getUserById (users : List UserRecord) (userId : Nat) : Option UserRecord :=
  users.find? (fun u => u.id == userId)

/-- Code of the base64 alphabet character for a sextet (RFC 4648, the
alphabet Node's `Buffer.toString('base64')` emits). -/
def base64Code (n : Nat) : Nat :=
  if n < 26 then 65 + n
  else if n < 52 then 71 + n
  else if n < 62 then n - 4
  else if n = 62 then 43
  else 47

/-- The base64 alphabet character for a sextet. -/
def sextetChar (n : Nat) : Char := Char.ofNat (base64Code n)

/-- The `=` padding character. -/
def base64Pad : Char := Char.ofNat 61

/-- Sextet value of a base64 alphabet character; `none` for padding and
any character outside the alphabet (Node's lenient decoder skips those). -/
def base64CharValue (c : Char) : Option Nat :=
  let k := c.toNat
  if 65 ≤ k ∧ k ≤ 90 then some (k - 65)
  else if 97 ≤ k ∧ k ≤ 122 then some (k - 71)
  else if 48 ≤ k ∧ k ≤ 57 then some (k + 4)
  else if k = 43 then some 62
  else if k = 47 then some 63
  else none

/-- base64-encode a byte list (RFC 4648 with padding), as
`Buffer.from(bytes).toString('base64')` does. -/
def base64EncodeBytes : List Nat → List Char
  | [] => []
  | [b1] => [sextetChar (b1 / 4), sextetChar (b1 % 4 * 16), base64Pad, base64Pad]
  | [b1, b2] =>
    [sextetChar (b1 / 4), sextetChar (b1 % 4 * 16 + b2 / 16),
     sextetChar (b2 % 16 * 4), base64Pad]
  | b1 :: b2 :: b3 :: rest =>
    sextetChar (b1 / 4) :: sextetChar (b1 % 4 * 16 + b2 / 16) ::
    sextetChar (b2 % 16 * 4 + b3 / 64) :: sextetChar (b3 % 64) ::
    base64EncodeBytes rest

/-- The sextet stream of a string, as Node's lenient base64 reader sees
it: characters outside the alphabet (and padding) are skipped. -/
def base64Sextets (s : String) : List Nat :=
  s.toList.filterMap base64CharValue

/-- Reassemble bytes from a sextet stream (`Buffer.from(s, 'base64')`);
a trailing group of fewer than four sextets yields the bytes its bits
complete, leftover bits are dropped. -/
def base64DecodeBytes : List Nat → List Nat
  | s1 :: s2 :: s3 :: s4 :: rest =>
    (s1 * 4 + s2 / 16) :: (s2 % 16 * 16 + s3 / 4) :: (s3 % 4 * 64 + s4) ::
    base64DecodeBytes rest
  | [s1, s2, s3] => [s1 * 4 + s2 / 16, s2 % 16 * 16 + s3 / 4]
  | [s1, s2] => [s1 * 4 + s2 / 16]
  | _ => []

/-- Byte list of a string (the state JSON is ASCII, one byte per char). -/
def strBytes (s : String) : List Nat := s.toList.map Char.toNat

/-- String from a byte list (inverse of `strBytes` on ASCII data). -/
def bytesToStr (bs : List Nat) : String := String.mk (bs.map Char.ofNat)

/-- `Buffer.from(s).toString('base64')`. -/
def base64EncodeString (s : String) : String :=
  String.mk (base64EncodeBytes (strBytes s))

/-- Decimal digits of a number, most significant first, onto `acc`;
fuel-indexed so that it reduces by kernel computation (any fuel
exceeding the value works; `natDecimalAux` supplies `n + 1`). -/
def natDecimalGo : Nat → Nat → List Char → List Char
  | 0, _, acc => acc
  | fuel + 1, n, acc =>
    let d := Char.ofNat (48 + n % 10)
    if n < 10 then d :: acc
    else natDecimalGo fuel (n / 10) (d :: acc)

/-- Decimal digits of a number, most significant first, onto `acc`
(how `JSON.stringify` renders a non-negative integer). -/
def natDecimalAux (n : Nat) (acc : List Char) : List Char :=
  natDecimalGo (n + 1) n acc

/-- Decimal rendering of a number. -/
def natDecimal (n : Nat) : String := String.mk (natDecimalAux n [])

/-- Characters of `JSON.stringify({userId: uid, timestamp: ts})`. -/
def stateJsonChars (uid ts : Nat) : List Char :=
  Char.ofNat 123 :: Char.ofNat 34 ::
    ("userId".toList ++ Char.ofNat 34 :: Char.ofNat 58 ::
      (natDecimalAux uid [] ++ Char.ofNat 44 :: Char.ofNat 34 ::
        ("timestamp".toList ++ Char.ofNat 34 :: Char.ofNat 58 ::
          (natDecimalAux ts [] ++ [Char.ofNat 125]))))

/-- `JSON.stringify({userId: uid, timestamp: ts})`. -/
def stateJson (uid ts : Nat) : String := String.mk (stateJsonChars uid ts)

/-- The `state` query parameter built by the `/auth` route
(`src/quickbooks-multi-tenant.js` lines 119-122):
`Buffer.from(JSON.stringify({userId, timestamp})).toString('base64')`. -/
def buildAuthState (uid ts : Nat) : String :=
  base64EncodeString (stateJson uid ts)

/-- One hex digit character (uppercase, as `encodeURIComponent` emits). -/
def hexDigitChar (n : Nat) : Char :=
  if n < 10 then Char.ofNat (48 + n) else Char.ofNat (55 + n)

/-- Percent-encoding of one character, `encodeURIComponent` style on
ASCII input: unreserved characters pass through, the rest become `%XX`. -/
def percentEncodeChar (c : Char) : List Char :=
  let k := c.toNat
  if (48 ≤ k ∧ k ≤ 57) ∨ (65 ≤ k ∧ k ≤ 90) ∨ (97 ≤ k ∧ k ≤ 122) ∨
      k = 45 ∨ k = 95 ∨ k = 46 ∨ k = 33 ∨ k = 126 ∨ k = 42 ∨ k = 39 ∨
      k = 40 ∨ k = 41 then [c]
  else [Char.ofNat 37, hexDigitChar (k / 16 % 16), hexDigitChar (k % 16)]

/-- `encodeURIComponent` on ASCII input. -/
def uriComponentEncode (s : String) : String :=
  String.mk (s.toList.flatMap percentEncodeChar)

/-- The fallback redirect URI hard-coded in the `/auth` and `/callback`
routes. -/
def defaultRedirectUri : String :=
  "https://landscaping-ai-app-production.up.railway.app/api/quickbooks/callback"

/-- The authorization URL assembled by the `/auth` route (lines 124-129). -/
def authUrl (clientId redirectUri st : String) : String :=
  "https://appcenter.intuit.com/connect/oauth2?client_id=" ++ clientId ++
    "&scope=com.intuit.quickbooks.accounting&redirect_uri=" ++
    uriComponentEncode redirectUri ++ "&response_type=code&state=" ++ st

/-- Outcome of the `/auth` route: HTTP status, redirect URL, and the
`state` parameter embedded in it. -/
structure AuthOutcome where
  status : Nat
  redirectUrl : Option String
  state : Option String
deriving DecidableEq, Repr

/-- The `/auth` route (`src/quickbooks-multi-tenant.js` lines 106-132):
500 when `QB_CLIENT_ID` or `QB_CLIENT_SECRET` is unset, otherwise a 302
redirect whose `state` encodes `{userId: req.user.id, timestamp:
Date.now()}`. -/
def authHandler (clientId clientSecret redirectUri : Option String)
    (userId ts : Nat) : AuthOutcome :=
  if !(truthy clientId && truthy clientSecret) then ⟨500, none, none⟩
  else
    let ruri := if truthy redirectUri then redirectUri.getD "" else defaultRedirectUri
    let st := buildAuthState userId ts
    ⟨302, some (authUrl (clientId.getD "") ruri st), some st⟩

/-- Digit value of a character, `none` for non-digits. -/
def digitVal (c : Char) : Option Nat :=
  if 48 ≤ c.toNat ∧ c.toNat ≤ 57 then some (c.toNat - 48) else none

/-- Split the longest leading run of digits off a character list. -/
def takeDigits : List Char → List Nat × List Char
  | [] => ([], [])
  | c :: cs =>
    match digitVal c with
    | some d =>
      let p := takeDigits cs
      (d :: p.1, p.2)
    | none => ([], c :: cs)

/-- Numeric value of a most-significant-first digit list. -/
def digitsVal (ds : List Nat) : Nat := ds.foldl (fun a d => 10 * a + d) 0

/-- Read a JSON non-negative integer literal off the front. -/
def parseNumber (cs : List Char) : Option (Nat × List Char) :=
  match takeDigits cs with
  | ([], _) => none
  | (ds, rest) => some (digitsVal ds, rest)

/-- Read the remainder of a JSON string key (after its opening quote)
up to the closing quote. -/
def takeKey : List Char → Option (List Char × List Char)
  | [] => none
  | c :: cs =>
    if c.toNat == 34 then some ([], cs)
    else
      match takeKey cs with
      | some (k, rest) => some (c :: k, rest)
      | none => none

/-- Read the members of a flat JSON object of numeric fields: repeated
`"key":number` separated by `,`, terminated by the closing brace.
Fuel-indexed; the callers supply fuel exceeding the member count. -/
def parseMembersAux : Nat → List Char → Option (List (String × Nat) × List Char)
  | 0, _ => none
  | _ + 1, [] => none
  | fuel + 1, c :: cs =>
    if c.toNat == 34 then
      match takeKey cs with
      | none => none
      | some (k, rest) =>
        match rest with
        | [] => none
        | colon :: rest2 =>
          if colon.toNat == 58 then
            match parseNumber rest2 with
            | none => none
            | some (v, rest3) =>
              match rest3 with
              | [] => none
              | sep :: rest4 =>
                if sep.toNat == 44 then
                  match parseMembersAux fuel rest4 with
                  | none => none
                  | some (kvs, rest5) => some ((String.mk k, v) :: kvs, rest5)
                else if sep.toNat == 125 then some ([(String.mk k, v)], rest4)
                else none
          else none
    else none

/-- A restricted reader for the shape the state encoder emits: a flat
object of numeric fields with no whitespace, consuming the whole input.
On the canonical encoder output it coincides with `JSON.parse` (proved
through the round-trip lemmas below); it is NOT `JSON.parse` on
arbitrary strings (it rejects whitespace or non-numeric payloads that
`JSON.parse` accepts), so theorems about arbitrary callback states do
not go through this reader — they quantify over the abstracted decode
step of `callbackHandlerWith` instead. -/
def jsonParseFlatObj (s : String) : Option (List (String × Nat)) :=
  match s.toList with
  | [] => none
  | c :: cs =>
    if c.toNat == 123 then
      match parseMembersAux (cs.length + 1) cs with
      | some (kvs, []) => some kvs
      | _ => none
    else none

/-- Canonical model of the callback's state decoding
(`src/quickbooks-multi-tenant.js` lines 153-159): base64-decode,
`JSON.parse`, read `userId`, and the JS `if (!userId) throw` guard
(which also rejects `userId` 0, a falsy value). Duplicate keys resolve
to the last occurrence as in JS. Exact on the image of `buildAuthState`
(the states the system itself generates), where the restricted
`jsonParseFlatObj` coincides with `JSON.parse`; theorems about
arbitrary, possibly attacker-supplied states instead quantify over the
decode parameter of `callbackHandlerWith`. -/
def decodeStateUserId (state : String) : Option Nat :=
  match jsonParseFlatObj (bytesToStr (base64DecodeBytes (base64Sextets state))) with
  | none => none
  | some kvs =>
    match kvs.reverse.lookup "userId" with
    | none => none
    | some u => if u = 0 then none else some u

/-- The query string of a `/callback` request; each field is absent or a
string. -/
structure CallbackQuery where
  code : Option String
  realmId : Option String
  state : Option String
  error : Option String
deriving DecidableEq, Repr

/-- Outcome of the `/callback` route: HTTP status, the token table
afterwards, and how many code-exchange POSTs were made. -/
structure CallbackOutcome where
  status : Nat
  store : TokenStore
  exchangeCalls : Nat
deriving DecidableEq, Repr

/-- The `/callback` missing-parameter guard (line 148):
`!code || !realmId || !state`. -/
def paramsMissing (q : CallbackQuery) : Bool :=
  !(truthy q.code && truthy q.realmId && truthy q.state)

/-- The `/callback` route (`src/quickbooks-multi-tenant.js` lines
135-226), with its state-decoding step abstracted: 400 when `error` is
truthy; 400 when `code`, `realmId` or `state` is missing; then inside
one try/catch: decode the state (`decode` returning `none` models the
throw of `JSON.parse` or of the `if (!userId)` guard, landing in the
catch as a 500 page), exchange the code (failure: 500),
`saveUserTokens(userId, realmId, ...)`, `getUserById(userId)` and render
the success page reading `user.business_name` (a missing user makes that
read throw after the tokens were already saved: 500).

The decode step — `Buffer.from(state, 'base64')`, `JSON.parse`, the
`.userId` read and the falsy guard — is a pure function of the state
string built from JS runtime builtins, so it is passed in as a
parameter like the network oracles: theorems about arbitrary callback
inputs quantify over `decode` and therefore hold for the builtins'
exact behavior, whatever it is on a given state. -/
def callbackHandlerWith (decode : String → Option Nat) (now : Nat)
    (exchange : String → TokenResponse) (users : List UserRecord)
    (store : TokenStore) (q : CallbackQuery) : CallbackOutcome :=
  if truthy q.error then ⟨400, store, 0⟩
  else if paramsMissing q then ⟨400, store, 0⟩
  else
    match decode (q.state.getD "") with
    | none => ⟨500, store, 0⟩
    | some userId =>
      match exchange (q.code.getD "") with
      | TokenResponse.err => ⟨500, store, 1⟩
      | TokenResponse.ok access_token refresh_token expires_in =>
        let store2 :=
          (saveUserTokens now store userId (q.realmId.getD "") access_token
            refresh_token expires_in).1
        match getUserById users userId with
        | none => ⟨500, store2, 1⟩
        | some _ => ⟨200, store2, 1⟩

/-- The `/callback` route with the decode step instantiated at its
canonical model `decodeStateUserId`, which is exact on the states the
`/auth` route generates. -/
def callbackHandler (now : Nat) (exchange : String → TokenResponse)
    (users : List UserRecord) (store : TokenStore) (q : CallbackQuery) :
    CallbackOutcome :=
  callbackHandlerWith decodeStateUserId now exchange users store q

/-- Outcome of the `/status` route: the JSON fields derived from the
token row, the token table afterwards, and the refresh POST count. -/
structure StatusOutcome where
  connected : Bool
  realmId : Option String
  tokenExpiry : Option Nat
  store : TokenStore
  refreshCalls : Nat
deriving DecidableEq, Repr

/-- The `/status` route (`src/quickbooks-multi-tenant.js` lines 81-103):
calls `getValidUserTokens(req.user.id)` and reports
`connected = tokens !== null`, `realmId`, `tokenExpiry`. -/
def statusHandler (now : Nat) (refresh : String → TokenResponse)
    (store : TokenStore) (userId : Nat) : StatusOutcome :=
  let res := getValidUserTokens now refresh store userId
  ⟨res.tokens.isSome, res.tokens.map (fun t => t.realm_id),
    res.tokens.map (fun t => t.expires_at), res.store, res.refreshCalls⟩

/-- Outcome of one downstream QuickBooks API GET. -/
inductive ApiResult where
  | ok (body : String)
  | err
deriving DecidableEq, Repr

/-- Outcome of the `/company-info` route: HTTP status, token table
afterwards, refresh POST count and downstream GET count. -/
structure ResourceOutcome where
  status : Nat
  store : TokenStore
  refreshCalls : Nat
  downstreamCalls : Nat
deriving DecidableEq, Repr

/-- The `/company-info` route (`src/quickbooks-multi-tenant.js` lines
229-257): `getValidUserTokens(req.user.id)`; if null, 401
"QuickBooks not connected for this account" with no downstream request;
otherwise one downstream GET with the bearer token scoped to
`tokens.realm_id`, 200 on success, 500 on failure. -/
def companyInfoHandler (now : Nat) (refresh : String → TokenResponse)
    (downstream : String → String → ApiResult) (store : TokenStore)
    (userId : Nat) : ResourceOutcome :=
  let res := getValidUserTokens now refresh store userId
  match res.tokens with
  | none => ⟨401, res.store, res.refreshCalls, 0⟩
  | some t =>
    match downstream t.access_token t.realm_id with
    | ApiResult.ok _ => ⟨200, res.store, res.refreshCalls, 1⟩
    | ApiResult.err => ⟨500, res.store, res.refreshCalls, 1⟩

/-- Fixture: a refresh/exchange oracle that always succeeds with a
rotated token pair and a one-hour ttl. -/
def oracleRotate : String → TokenResponse :=
  fun _ => TokenResponse.ok "newAccess" "newRefresh" 3600

/-- Fixture: a refresh oracle that always fails (revoked token,
transport error or timeout; all land in the same catch). -/
def oracleDead : String → TokenResponse := fun _ => TokenResponse.err

/-- Fixture: a refresh oracle answering with `expires_in = 0`. -/
def oracleZeroTtl : String → TokenResponse :=
  fun _ => TokenResponse.ok "zeroAccess" "zeroRefresh" 0

/-- Fixture: a downstream API oracle that always succeeds. -/
def oracleDownstream : String → String → ApiResult :=
  fun _ _ => ApiResult.ok "companyinfo"

/-- Fixture: a stored row for tenant 1 expiring at t = 200000 ms. -/
def staleRecord : TokenRecord :=
  ⟨1, "9001", "staleAccess", "staleRefresh", 200000, 50, 50⟩

/-- Fixture: a stored row for tenant 1 expiring at t = 900000000 ms. -/
def freshRecord : TokenRecord :=
  ⟨1, "9001", "freshAccess", "freshRefresh", 900000000, 50, 50⟩

/-- Fixture: a table holding only `staleRecord`. -/
def staleStore : TokenStore := [staleRecord]

/-- Fixture: a table holding only `freshRecord`. -/
def freshStore : TokenStore := [freshRecord]

/-- Fixture: a row whose expiry sits exactly on the 5-minute margin for
`now = 0`. -/
def boundaryRecord : TokenRecord :=
  ⟨1, "9001", "edgeAccess", "edgeRefresh", 300000, 50, 50⟩

/-- Fixture: a table holding only `boundaryRecord`. -/
def boundaryStore : TokenStore := [boundaryRecord]

/-- Fixture: a users table containing tenant 7 only. -/
def sampleUsers : List UserRecord := [⟨7, "owner@acme.test", some "Acme"⟩]

/-- Fixture: a `state` parameter tampered in its first character: the
state built for tenant 7 starts with `e` (the sextet of the leading
brace); replacing it by `A` scrambles the first decoded byte. -/
def tamperedState : String :=
  String.mk (Char.ofNat 65 :: (buildAuthState 7 5).toList.drop 1)

/-- A code point below 256 survives the `Char` round trip. -/
theorem char_toNat_ofNat_lt (n : Nat) (h : n < 256) : (Char.ofNat n).toNat = n := by
  rw [Char.ofNat, dif_pos (Or.inl (by omega : n < 55296))]
  simp [Char.ofNatAux, Char.toNat, UInt32.toNat]

/-- Replacing every row keyed by `userId` leaves the key's lookup at the
replacement, provided some row with that key existed. -/
theorem getUserTokens_map_replace (store : TokenStore) (userId : Nat)
    (nr : TokenRecord) (hnr : nr.user_id = userId)
    (h : (getUserTokens store userId).isSome) :
    getUserTokens (store.map (fun r => if r.user_id == userId then nr else r))
      userId = some nr := by
  induction store with
  | nil => simp [getUserTokens] at h
  | cons hd tl ih =>
    show ((if hd.user_id == userId then nr else hd) ::
        tl.map (fun r => if r.user_id == userId then nr else r)).find?
        (fun r => r.user_id == userId) = some nr
    by_cases hh : hd.user_id = userId
    · have hp : (nr.user_id == userId) = true := by simp [hnr]
      rw [if_pos (by simp [hh])]
      simp only [List.find?, hp]
    · have hf : (hd.user_id == userId) = false := by simp [hh]
      rw [if_neg (by simp [hh])]
      simp only [List.find?, hf]
      have h' : (getUserTokens tl userId).isSome := by
        simp only [getUserTokens, List.find?, hf] at h
        exact h
      exact ih h'

/-- After an upsert, reading the key returns exactly the upserted row. -/
theorem getUserTokens_save (now : Nat) (store : TokenStore) (userId : Nat)
    (rlm a r : String) (ttl : Nat) :
    getUserTokens (saveUserTokens now store userId rlm a r ttl).1 userId =
      some (saveUserTokens now store userId rlm a r ttl).2 := by
  cases h : getUserTokens store userId with
  | some old =>
    simp only [saveUserTokens, h]
    exact getUserTokens_map_replace store userId _ rfl (by simp [h])
  | none =>
    have hn : store.find? (fun r => r.user_id == userId) = none := h
    simp [saveUserTokens, h, getUserTokens, List.find?_append, hn, List.find?]

/-- The row an upsert returns, when a row for the key already existed:
all fields replaced, `created_at` kept, `updated_at` set to now. -/
theorem saveUserTokens_snd_of_get (now : Nat) (store : TokenStore)
    (userId : Nat) (rlm a r : String) (ttl : Nat) (t : TokenRecord)
    (h : getUserTokens store userId = some t) :
    (saveUserTokens now store userId rlm a r ttl).2 =
      ⟨userId, rlm, a, r, now + ttl * 1000, t.created_at, now⟩ := by
  simp [saveUserTokens, h]

/-- The row an upsert returns always carries the requested key, realm,
token pair and the computed expiry `now + ttl * 1000`. -/
theorem saveUserTokens_fields (now : Nat) (store : TokenStore) (userId : Nat)
    (rlm a r : String) (ttl : Nat) :
    (saveUserTokens now store userId rlm a r ttl).2.user_id = userId ∧
    (saveUserTokens now store userId rlm a r ttl).2.realm_id = rlm ∧
    (saveUserTokens now store userId rlm a r ttl).2.access_token = a ∧
    (saveUserTokens now store userId rlm a r ttl).2.refresh_token = r ∧
    (saveUserTokens now store userId rlm a r ttl).2.expires_at = now + ttl * 1000 := by
  cases h : getUserTokens store userId <;> simp [saveUserTokens, h]

/-- An upsert preserves the `UNIQUE(user_id)` invariant. -/
theorem saveUserTokens_unique (now : Nat) (store : TokenStore) (userId : Nat)
    (rlm a r : String) (ttl : Nat) (hu : UniqueUsers store) :
    UniqueUsers (saveUserTokens now store userId rlm a r ttl).1 := by
  cases h : getUserTokens store userId with
  | some old =>
    simp only [saveUserTokens, h]
    refine hu.map _ (fun x y hxy => ?_)
    by_cases hx : x.user_id = userId <;> by_cases hy : y.user_id = userId
    · exact absurd (hx.trans hy.symm) hxy
    · intro hc
      simp [hx, hy] at hc
      exact hy hc.symm
    · intro hc
      simp [hx, hy] at hc
    · intro hc
      simp [hx, hy] at hc
      exact hxy hc
  | none =>
    simp only [saveUserTokens, h]
    refine List.pairwise_append.mpr ⟨hu, by simp, ?_⟩
    intro x hx y hy
    simp only [List.mem_singleton] at hy
    subst hy
    have hne := List.find?_eq_none.mp h x hx
    simp at hne
    simp [hne]

/-- `getValidUserTokens` when no row is stored: absent, no calls. -/
theorem getValid_absent_eq (now : Nat) (refresh : String → TokenResponse)
    (store : TokenStore) (userId : Nat)
    (h : getUserTokens store userId = none) :
    getValidUserTokens now refresh store userId = ⟨none, store, 0⟩ := by
  simp [getValidUserTokens, h]

/-- `getValidUserTokens` outside the refresh margin: the stored row is
returned unchanged with no refresh call. -/
theorem getValid_fast_eq (now : Nat) (refresh : String → TokenResponse)
    (store : TokenStore) (userId : Nat) (t : TokenRecord)
    (hget : getUserTokens store userId = some t)
    (hfresh : ¬ t.expires_at < now + 5 * 60000) :
    getValidUserTokens now refresh store userId = ⟨some t, store, 0⟩ := by
  simp [getValidUserTokens, hget, hfresh]

/-- `getValidUserTokens` when the refresh POST fails: absent, exactly
one call, table untouched. -/
theorem getValid_fail_eq (now : Nat) (refresh : String → TokenResponse)
    (store : TokenStore) (userId : Nat) (t : TokenRecord)
    (hget : getUserTokens store userId = some t)
    (hexp : t.expires_at < now + 5 * 60000)
    (herr : refresh t.refresh_token = TokenResponse.err) :
    getValidUserTokens now refresh store userId = ⟨none, store, 1⟩ := by
  simp [getValidUserTokens, hget, hexp, herr]

/-- `getValidUserTokens` when the refresh POST succeeds: exactly one
call, the row is upserted with the same key and realm and the new
triple, and the freshly re-read row is returned. -/
theorem getValid_refresh_eq (now : Nat) (refresh : String → TokenResponse)
    (store : TokenStore) (userId : Nat) (t : TokenRecord) (a r : String)
    (ttl : Nat)
    (hget : getUserTokens store userId = some t)
    (hexp : t.expires_at < now + 5 * 60000)
    (hok : refresh t.refresh_token = TokenResponse.ok a r ttl) :
    getValidUserTokens now refresh store userId =
      ⟨some ⟨userId, t.realm_id, a, r, now + ttl * 1000, t.created_at, now⟩,
        (saveUserTokens now store userId t.realm_id a r ttl).1, 1⟩ := by
  have hread := getUserTokens_save now store userId t.realm_id a r ttl
  rw [saveUserTokens_snd_of_get now store userId t.realm_id a r ttl t hget]
    at hread
  simp [getValidUserTokens, hget, hexp, hok, hread]

/-- Claim C1: for every tenant with a stored credential whose expiry is
strictly later than now + 300 s, `getValidUserTokens` makes no network
call and returns the stored credential unchanged, and a repeated call
under the same precondition returns the identical credential data. -/
theorem claim_C1_fast_path_idempotent (now : Nat)
    (refresh : String → TokenResponse) (store : TokenStore) (userId : Nat)
    (t : TokenRecord)
    (hget : getUserTokens store userId = some t)
    (hfresh : now + 300000 < t.expires_at) :
    getValidUserTokens now refresh store userId = ⟨some t, store, 0⟩ ∧
    getValidUserTokens now refresh
      (getValidUserTokens now refresh store userId).store userId =
      ⟨some t, store, 0⟩ := by
  have h := getValid_fast_eq now refresh store userId t hget (by omega)
  exact ⟨h, by rw [h]; exact h⟩

/-- Witness for C1 at a concrete fresh credential. -/
theorem claim_C1_fast_path_idempotent_witness :
    getUserTokens freshStore 1 = some freshRecord ∧
    getValidUserTokens 5000 oracleDead freshStore 1 =
      ⟨some freshRecord, freshStore, 0⟩ :=
  ⟨by decide,
    (claim_C1_fast_path_idempotent 5000 oracleDead freshStore 1 freshRecord
      (by decide) (by decide)).1⟩

/-- Counterexample to claim C2 as stated: a credential with
`expires_at` exactly equal to now + 300 s ("not later than" holds) takes
the fast path: zero refresh calls and an unchanged store, because the
code's guard is the strict `expiryTime < now + 5 * 60000`. -/
theorem claim_C2_boundary_counterexample :
    getUserTokens boundaryStore 1 = some boundaryRecord ∧
    boundaryRecord.expires_at ≤ 0 + 300000 ∧
    getValidUserTokens 0 oracleRotate boundaryStore 1 =
      ⟨some boundaryRecord, boundaryStore, 0⟩ := by
  decide

/-- Claim C2 (amended: the refresh fires only when `expires_at` is
strictly earlier than now + 300 s): then the refresh client is invoked
exactly once and on success the row is upserted with the same tenant key
and the same realm id and the new token triple, the store subsequently
returns the new access token and expiry, and that freshly persisted row
is what the call returns. -/
theorem claim_C2_refresh_on_expiry (now : Nat)
    (refresh : String → TokenResponse) (store : TokenStore) (userId : Nat)
    (t : TokenRecord) (a r : String) (ttl : Nat)
    (hget : getUserTokens store userId = some t)
    (hexp : t.expires_at < now + 300000)
    (hok : refresh t.refresh_token = TokenResponse.ok a r ttl) :
    getValidUserTokens now refresh store userId =
      ⟨some ⟨userId, t.realm_id, a, r, now + ttl * 1000, t.created_at, now⟩,
        (saveUserTokens now store userId t.realm_id a r ttl).1, 1⟩ ∧
    getUserTokens (saveUserTokens now store userId t.realm_id a r ttl).1
      userId =
      some ⟨userId, t.realm_id, a, r, now + ttl * 1000, t.created_at, now⟩ := by
  have hread := getUserTokens_save now store userId t.realm_id a r ttl
  rw [saveUserTokens_snd_of_get now store userId t.realm_id a r ttl t hget]
    at hread
  exact ⟨getValid_refresh_eq now refresh store userId t a r ttl hget
    (by omega) hok, hread⟩

/-- Witness for C2 (amended) at a concrete stale credential. -/
theorem claim_C2_refresh_on_expiry_witness :
    getUserTokens staleStore 1 = some staleRecord ∧
    getValidUserTokens 1000000 oracleRotate staleStore 1 =
      ⟨some ⟨1, "9001", "newAccess", "newRefresh", 1000000 + 3600 * 1000, 50,
          1000000⟩,
        (saveUserTokens 1000000 staleStore 1 "9001" "newAccess" "newRefresh"
          3600).1, 1⟩ :=
  ⟨by decide,
    (claim_C2_refresh_on_expiry 1000000 oracleRotate staleStore 1 staleRecord
      "newAccess" "newRefresh" 3600 (by decide) (by decide) (by decide)).1⟩

/-- Claim C3: when the stored credential triggers a refresh and the
refresh call fails (revocation, transport error or timeout all land in
the same catch), `getValidUserTokens` returns absent and the stored row
is left untouched, so a subsequent store read still returns it. -/
theorem claim_C3_fail_closed (now : Nat) (refresh : String → TokenResponse)
    (store : TokenStore) (userId : Nat) (t : TokenRecord)
    (hget : getUserTokens store userId = some t)
    (hexp : t.expires_at < now + 300000)
    (herr : refresh t.refresh_token = TokenResponse.err) :
    getValidUserTokens now refresh store userId = ⟨none, store, 1⟩ ∧
    getUserTokens store userId = some t :=
  ⟨getValid_fail_eq now refresh store userId t hget (by omega) herr, hget⟩

/-- Witness for C3 at a concrete stale credential and dead refresh. -/
theorem claim_C3_fail_closed_witness :
    getValidUserTokens 1000000 oracleDead staleStore 1 =
      ⟨none, staleStore, 1⟩ ∧
    getUserTokens staleStore 1 = some staleRecord :=
  claim_C3_fail_closed 1000000 oracleDead staleStore 1 staleRecord
    (by decide) (by decide) (by decide)

/-- Counterexample to claim C4 as stated: with a server answer of
`expires_in = 0` the refresh succeeds and the credential returned has
`expires_at` equal to now, not strictly later than now. -/
theorem claim_C4_zero_ttl_counterexample :
    (getValidUserTokens 1000 oracleZeroTtl staleStore 1).tokens =
      some ⟨1, "9001", "zeroAccess", "zeroRefresh", 1000, 50, 1000⟩ ∧
    ¬ 1000 <
      (⟨1, "9001", "zeroAccess", "zeroRefresh", 1000, 50, 1000⟩ :
        TokenRecord).expires_at := by
  decide

/-- Claim C4 (amended: provided every successful refresh answer carries
`ttlSeconds` of at least 1): any credential `getValidUserTokens`
returns, including the one re-read after persisting a refresh, has
`expires_at` strictly later than now. -/
theorem claim_C4_no_expired_return (now : Nat)
    (refresh : String → TokenResponse) (store : TokenStore) (userId : Nat)
    (t' : TokenRecord)
    (httl : ∀ rt a r ttl, refresh rt = TokenResponse.ok a r ttl → 1 ≤ ttl)
    (hres : (getValidUserTokens now refresh store userId).tokens = some t') :
    now < t'.expires_at := by
  cases hget : getUserTokens store userId with
  | none =>
    rw [getValid_absent_eq now refresh store userId hget] at hres
    simp at hres
  | some t =>
    by_cases hlt : t.expires_at < now + 5 * 60000
    · cases hok : refresh t.refresh_token with
      | err =>
        rw [getValid_fail_eq now refresh store userId t hget hlt hok] at hres
        simp at hres
      | ok a r ttl =>
        rw [getValid_refresh_eq now refresh store userId t a r ttl hget hlt
          hok] at hres
        have httl' := httl _ _ _ _ hok
        injection hres with h
        subst h
        simp only []
        omega
    · rw [getValid_fast_eq now refresh store userId t hget hlt] at hres
      injection hres with h
      subst h
      omega

/-- Witness for C4 (amended) at a concrete refresh with a 1-hour ttl. -/
theorem claim_C4_no_expired_return_witness :
    (getValidUserTokens 1000000 oracleRotate staleStore 1).tokens =
      some ⟨1, "9001", "newAccess", "newRefresh", 4600000, 50, 1000000⟩ ∧
    1000000 <
      (⟨1, "9001", "newAccess", "newRefresh", 4600000, 50, 1000000⟩ :
        TokenRecord).expires_at :=
  ⟨by decide,
    claim_C4_no_expired_return 1000000 oracleRotate staleStore 1
      ⟨1, "9001", "newAccess", "newRefresh", 4600000, 50, 1000000⟩
      (fun rt a r ttl h => by injection h with h1 h2 h3; omega)
      (by decide)⟩

/-- Counterexample to claim C6 as stated: the callback with a valid code
and realm id but a state tampered in one character (its first base64
character changed) is reported as 500, not 400-equivalent — the decode
failure throws into the catch-all, which answers
`res.status(500).send(...)`; the store stays untouched and no exchange
happens. -/
theorem claim_C6_invalid_state_counterexample :
    tamperedState ≠ buildAuthState 7 5 ∧
    callbackHandler 0 oracleRotate sampleUsers []
      ⟨some "abc", some "9001", some tamperedState, none⟩ = ⟨500, [], 0⟩ ∧
    (500 : Nat) ≠ 400 := by
  decide

/-- Claim C6 (amended: missing `code`/`realmId`/`state` is rejected with
400, while a state on which the decode step fails — `JSON.parse`
throwing, or the decoded payload lacking a usable `userId` — is
rejected with 500 via the catch-all): in every such case the handler
performs no token exchange and no store mutation. Stated for every
decode function, so in particular for the exact behavior of the JS
builtins on any given state. -/
theorem claim_C6_invalid_callback_rejected (decode : String → Option Nat)
    (now : Nat) (exchange : String → TokenResponse)
    (users : List UserRecord) (store : TokenStore) (q : CallbackQuery)
    (herr : truthy q.error = false)
    (h : paramsMissing q = true ∨
      (paramsMissing q = false ∧ decode (q.state.getD "") = none)) :
    (callbackHandlerWith decode now exchange users store q).store = store ∧
    (callbackHandlerWith decode now exchange users store q).exchangeCalls
      = 0 ∧
    (callbackHandlerWith decode now exchange users store q).status =
      (if paramsMissing q then 400 else 500) := by
  rcases h with hm | ⟨hm, hd⟩
  · simp [callbackHandlerWith, herr, hm]
  · simp [callbackHandlerWith, herr, hm, hd]

/-- Witness for C6 (amended): a query with `code` missing, and a query
whose state makes the canonical decode fail. -/
theorem claim_C6_invalid_callback_rejected_witness :
    truthy (none : Option String) = false ∧
    ((callbackHandlerWith decodeStateUserId 0 oracleRotate sampleUsers []
        ⟨none, some "9001", some "x", none⟩).store = [] ∧
      (callbackHandlerWith decodeStateUserId 0 oracleRotate sampleUsers []
        ⟨none, some "9001", some "x", none⟩).exchangeCalls = 0 ∧
      (callbackHandlerWith decodeStateUserId 0 oracleRotate sampleUsers []
        ⟨none, some "9001", some "x", none⟩).status =
        (if paramsMissing ⟨none, some "9001", some "x", none⟩ then 400
         else 500)) :=
  ⟨by decide,
    claim_C6_invalid_callback_rejected decodeStateUserId 0 oracleRotate
      sampleUsers [] ⟨none, some "9001", some "x", none⟩ (by decide)
      (Or.inl (by decide))⟩

/-- Claim C7: the store upsert computes `expires_at = now + ttl * 1000`,
persists whatever refresh token is supplied, overwrites any existing row
for the tenant (reading the key afterwards returns exactly the upserted
row), and preserves the at-most-one-row-per-tenant invariant, so any
sequence of upserts keeps at most one active credential per tenant. -/
theorem claim_C7_upsert_unique (now : Nat) (store : TokenStore)
    (userId : Nat) (rlm a r : String) (ttl : Nat) (hu : UniqueUsers store) :
    (saveUserTokens now store userId rlm a r ttl).2.user_id = userId ∧
    (saveUserTokens now store userId rlm a r ttl).2.realm_id = rlm ∧
    (saveUserTokens now store userId rlm a r ttl).2.access_token = a ∧
    (saveUserTokens now store userId rlm a r ttl).2.refresh_token = r ∧
    (saveUserTokens now store userId rlm a r ttl).2.expires_at =
      now + ttl * 1000 ∧
    getUserTokens (saveUserTokens now store userId rlm a r ttl).1 userId =
      some (saveUserTokens now store userId rlm a r ttl).2 ∧
    UniqueUsers (saveUserTokens now store userId rlm a r ttl).1 := by
  have hf := saveUserTokens_fields now store userId rlm a r ttl
  exact ⟨hf.1, hf.2.1, hf.2.2.1, hf.2.2.2.1, hf.2.2.2.2,
    getUserTokens_save now store userId rlm a r ttl,
    saveUserTokens_unique now store userId rlm a r ttl hu⟩

/-- Witness for C7: upserting tenant 1 over a two-tenant table. -/
theorem claim_C7_upsert_unique_witness :
    UniqueUsers (freshRecord :: [⟨2, "9002", "a2", "r2", 700, 60, 60⟩]) ∧
    ((saveUserTokens 1000 (freshRecord ::
        [⟨2, "9002", "a2", "r2", 700, 60, 60⟩]) 1 "9001" "na" "nr" 60).2.user_id
        = 1 ∧
      (saveUserTokens 1000 (freshRecord ::
        [⟨2, "9002", "a2", "r2", 700, 60, 60⟩]) 1 "9001" "na" "nr" 60).2.realm_id
        = "9001" ∧
      (saveUserTokens 1000 (freshRecord ::
        [⟨2, "9002", "a2", "r2", 700, 60, 60⟩]) 1 "9001" "na" "nr" 60).2.access_token
        = "na" ∧
      (saveUserTokens 1000 (freshRecord ::
        [⟨2, "9002", "a2", "r2", 700, 60, 60⟩]) 1 "9001" "na" "nr" 60).2.refresh_token
        = "nr" ∧
      (saveUserTokens 1000 (freshRecord ::
        [⟨2, "9002", "a2", "r2", 700, 60, 60⟩]) 1 "9001" "na" "nr" 60).2.expires_at
        = 1000 + 60 * 1000 ∧
      getUserTokens (saveUserTokens 1000 (freshRecord ::
        [⟨2, "9002", "a2", "r2", 700, 60, 60⟩]) 1 "9001" "na" "nr" 60).1 1 =
        some (saveUserTokens 1000 (freshRecord ::
          [⟨2, "9002", "a2", "r2", 700, 60, 60⟩]) 1 "9001" "na" "nr" 60).2 ∧
      UniqueUsers (saveUserTokens 1000 (freshRecord ::
        [⟨2, "9002", "a2", "r2", 700, 60, 60⟩]) 1 "9001" "na" "nr" 60).1) :=
  ⟨by decide,
    claim_C7_upsert_unique 1000
      (freshRecord :: [⟨2, "9002", "a2", "r2", 700, 60, 60⟩]) 1 "9001" "na"
      "nr" 60 (by decide)⟩

/-- Claim C8: a tenant with no stored credential gets absent from
`getValidUserTokens` with zero refresh calls, and the resource route
answers 401 "not connected" without any downstream HTTP request. -/
theorem claim_C8_not_connected (now : Nat)
    (refresh : String → TokenResponse)
    (downstream : String → String → ApiResult) (store : TokenStore)
    (userId : Nat) (h : getUserTokens store userId = none) :
    getValidUserTokens now refresh store userId = ⟨none, store, 0⟩ ∧
    companyInfoHandler now refresh downstream store userId =
      ⟨401, store, 0, 0⟩ := by
  have h1 := getValid_absent_eq now refresh store userId h
  exact ⟨h1, by simp [companyInfoHandler, h1]⟩

/-- Witness for C8: an empty store. -/
theorem claim_C8_not_connected_witness :
    getValidUserTokens 0 oracleRotate [] 1 = ⟨none, [], 0⟩ ∧
    companyInfoHandler 0 oracleRotate oracleDownstream [] 1 =
      ⟨401, [], 0, 0⟩ :=
  claim_C8_not_connected 0 oracleRotate oracleDownstream [] 1 (by decide)

/-- Claim C9 (implicit): the callback tail is not atomic — when the
state decodes to a tenant with no user row and the code exchange
succeeds, the tokens are persisted first and the success page then
throws on the missing user, so the handler reports a 500 failure page
even though the store was mutated with the exchanged credential.
Stated for every decode function, so in particular for the exact
behavior of the JS builtins: whichever states really decode to
`userId`, on those the handler behaves as proved. -/
theorem claim_C9_nonatomic_callback (decode : String → Option Nat)
    (now : Nat) (exchange : String → TokenResponse)
    (users : List UserRecord) (store : TokenStore) (q : CallbackQuery)
    (userId : Nat) (a r : String) (ttl : Nat)
    (herr : truthy q.error = false)
    (hmiss : paramsMissing q = false)
    (hdec : decode (q.state.getD "") = some userId)
    (hex : exchange (q.code.getD "") = TokenResponse.ok a r ttl)
    (huser : getUserById users userId = none) :
    callbackHandlerWith decode now exchange users store q =
      ⟨500, (saveUserTokens now store userId (q.realmId.getD "") a r ttl).1,
        1⟩ ∧
    getUserTokens
      (callbackHandlerWith decode now exchange users store q).store userId =
      some (saveUserTokens now store userId (q.realmId.getD "") a r ttl).2 := by
  have h1 : callbackHandlerWith decode now exchange users store q =
      ⟨500, (saveUserTokens now store userId (q.realmId.getD "") a r ttl).1,
        1⟩ := by
    simp [callbackHandlerWith, herr, hmiss, hdec, hex, huser]
  refine ⟨h1, ?_⟩
  rw [h1]
  exact getUserTokens_save now store userId (q.realmId.getD "") a r ttl

/-- Witness for C9: the canonical decode on a state built for tenant 3
(where it provably agrees with the JS builtins), a users table holding
only tenant 7, a successful exchange. -/
theorem claim_C9_nonatomic_callback_witness :
    getUserById sampleUsers 3 = none ∧
    callbackHandlerWith decodeStateUserId 0 oracleRotate sampleUsers []
      ⟨some "abc", some "9001", some (buildAuthState 3 1), none⟩ =
      ⟨500, (saveUserTokens 0 [] 3 "9001" "newAccess" "newRefresh" 3600).1,
        1⟩ :=
  ⟨by decide,
    (claim_C9_nonatomic_callback decodeStateUserId 0 oracleRotate sampleUsers
      [] ⟨some "abc", some "9001", some (buildAuthState 3 1), none⟩ 3
      "newAccess" "newRefresh" 3600 (by decide) (by decide) (by decide)
      (by decide) (by decide)).1⟩

/-- Claim C10 (implicit): the read-only `/status` route mutates the
credential store — for a credential inside the 5-minute margin a GET
triggers exactly one refresh and persists the rotated tokens (new access
and refresh token, recomputed `expires_at`, `updated_at` set to now),
so the stored row afterwards differs from the one before. -/
theorem claim_C10_status_mutates (now : Nat)
    (refresh : String → TokenResponse) (store : TokenStore) (userId : Nat)
    (t : TokenRecord) (a r : String) (ttl : Nat)
    (hget : getUserTokens store userId = some t)
    (hexp : t.expires_at < now + 300000)
    (hok : refresh t.refresh_token = TokenResponse.ok a r ttl)
    (hchanged : a ≠ t.access_token) :
    (statusHandler now refresh store userId).refreshCalls = 1 ∧
    (statusHandler now refresh store userId).store =
      (saveUserTokens now store userId t.realm_id a r ttl).1 ∧
    getUserTokens (statusHandler now refresh store userId).store userId =
      some ⟨userId, t.realm_id, a, r, now + ttl * 1000, t.created_at, now⟩ ∧
    getUserTokens (statusHandler now refresh store userId).store userId ≠
      getUserTokens store userId := by
  have h1 := getValid_refresh_eq now refresh store userId t a r ttl hget
    (by omega) hok
  have hread := getUserTokens_save now store userId t.realm_id a r ttl
  rw [saveUserTokens_snd_of_get now store userId t.realm_id a r ttl t hget]
    at hread
  refine ⟨by simp [statusHandler, h1], by simp [statusHandler, h1], ?_, ?_⟩
  · simp only [statusHandler, h1]
    exact hread
  · simp only [statusHandler, h1]
    rw [hread, hget]
    intro hcontra
    injection hcontra with hrec
    exact hchanged (congrArg TokenRecord.access_token hrec)

/-- Witness for C10 at a concrete stale credential. -/
theorem claim_C10_status_mutates_witness :
    getUserTokens staleStore 1 = some staleRecord ∧
    ((statusHandler 1000000 oracleRotate staleStore 1).refreshCalls = 1 ∧
      (statusHandler 1000000 oracleRotate staleStore 1).store =
        (saveUserTokens 1000000 staleStore 1 "9001" "newAccess" "newRefresh"
          3600).1 ∧
      getUserTokens (statusHandler 1000000 oracleRotate staleStore 1).store 1 =
        some ⟨1, "9001", "newAccess", "newRefresh", 1000000 + 3600 * 1000, 50,
          1000000⟩ ∧
      getUserTokens (statusHandler 1000000 oracleRotate staleStore 1).store 1 ≠
        getUserTokens staleStore 1) :=
  ⟨by decide,
    claim_C10_status_mutates 1000000 oracleRotate staleStore 1 staleRecord
      "newAccess" "newRefresh" 3600 (by decide) (by decide) (by decide)
      (by decide)⟩

/-- `String.toList` of a constructed string is its character list. -/
theorem toList_mk (l : List Char) : (String.mk l).toList = l := rfl

/-- Encoding then reading a sextet through the base64 alphabet is the
identity. -/
theorem base64CharValue_sextet :
    ∀ n, n < 64 → base64CharValue (sextetChar n) = some n := by
  decide

/-- The padding character is outside the alphabet. -/
theorem base64CharValue_pad : base64CharValue base64Pad = none := by
  decide

/-- base64 round trip on byte lists: decoding the sextet stream of the
encoding gives the bytes back. -/
theorem base64_roundtrip :
    ∀ bs : List Nat, (∀ b ∈ bs, b < 256) →
      base64DecodeBytes ((base64EncodeBytes bs).filterMap base64CharValue) = bs
  | [], _ => rfl
  | [b1], h => by
    have hb1 : b1 < 256 := h b1 (by simp)
    have h1 := base64CharValue_sextet (b1 / 4) (by omega)
    have h2 := base64CharValue_sextet (b1 % 4 * 16) (by omega)
    simp [base64EncodeBytes, List.filterMap_cons, h1, h2, base64CharValue_pad,
      base64DecodeBytes]
    omega
  | [b1, b2], h => by
    have hb1 : b1 < 256 := h b1 (by simp)
    have hb2 : b2 < 256 := h b2 (by simp)
    have h1 := base64CharValue_sextet (b1 / 4) (by omega)
    have h2 := base64CharValue_sextet (b1 % 4 * 16 + b2 / 16) (by omega)
    have h3 := base64CharValue_sextet (b2 % 16 * 4) (by omega)
    simp [base64EncodeBytes, List.filterMap_cons, h1, h2, h3,
      base64CharValue_pad, base64DecodeBytes]
    constructor <;> omega
  | b1 :: b2 :: b3 :: rest, h => by
    have hb1 : b1 < 256 := h b1 (by simp)
    have hb2 : b2 < 256 := h b2 (by simp)
    have hb3 : b3 < 256 := h b3 (by simp)
    have ih := base64_roundtrip rest (fun b hb => h b (by simp [hb]))
    have h1 := base64CharValue_sextet (b1 / 4) (by omega)
    have h2 := base64CharValue_sextet (b1 % 4 * 16 + b2 / 16) (by omega)
    have h3 := base64CharValue_sextet (b2 % 16 * 4 + b3 / 64) (by omega)
    have h4 := base64CharValue_sextet (b3 % 64) (by omega)
    simp [base64EncodeBytes, List.filterMap_cons, h1, h2, h3, h4,
      base64DecodeBytes, ih]
    refine ⟨by omega, by omega, by omega⟩

/-- Rendering digits onto an accumulator appends to rendering them onto
nothing. -/
theorem natDecimalGo_append (fuel : Nat) :
    ∀ n acc, n < fuel →
      natDecimalGo fuel n acc = natDecimalGo fuel n [] ++ acc := by
  induction fuel with
  | zero => intro n acc h; omega
  | succ f ih =>
    intro n acc h
    by_cases h10 : n < 10
    · simp [natDecimalGo, h10]
    · have hlt : n / 10 < f := by omega
      simp only [natDecimalGo, h10, if_false]
      rw [ih (n / 10) (Char.ofNat (48 + n % 10) :: acc) hlt,
        ih (n / 10) [Char.ofNat (48 + n % 10)] hlt]
      simp

/-- Every character the digit renderer emits is a decimal digit. -/
theorem natDecimalGo_digits (fuel : Nat) :
    ∀ n acc, n < fuel → (∀ c ∈ acc, 48 ≤ c.toNat ∧ c.toNat ≤ 57) →
      ∀ c ∈ natDecimalGo fuel n acc, 48 ≤ c.toNat ∧ c.toNat ≤ 57 := by
  induction fuel with
  | zero => intro n acc h; omega
  | succ f ih =>
    intro n acc h hacc c hc
    have hd : (Char.ofNat (48 + n % 10)).toNat = 48 + n % 10 :=
      char_toNat_ofNat_lt _ (by omega)
    by_cases h10 : n < 10
    · simp only [natDecimalGo, h10, if_true] at hc
      rcases List.mem_cons.mp hc with rfl | hc
      · omega
      · exact hacc c hc
    · have hlt : n / 10 < f := by omega
      simp only [natDecimalGo, h10, if_false] at hc
      refine ih (n / 10) _ hlt ?_ c hc
      intro d hdm
      rcases List.mem_cons.mp hdm with rfl | hdm
      · omega
      · exact hacc d hdm

/-- Digits of `n`, as characters. -/
theorem natDecimalAux_digits (n : Nat) :
    ∀ c ∈ natDecimalAux n [], 48 ≤ c.toNat ∧ c.toNat ≤ 57 :=
  natDecimalGo_digits (n + 1) n [] (by omega) (by simp)

/-- The digit renderer never emits an empty list. -/
theorem natDecimalAux_ne_nil (n : Nat) : natDecimalAux n [] ≠ [] := by
  unfold natDecimalAux
  by_cases h10 : n < 10
  · simp [natDecimalGo, h10]
  · have hlt : n / 10 < n := by omega
    simp only [natDecimalGo, h10, if_false]
    rw [natDecimalGo_append n (n / 10) _ hlt]
    simp

/-- Appending one digit multiplies the value by ten and adds it. -/
theorem digitsVal_append_singleton (xs : List Nat) (y : Nat) :
    digitsVal (xs ++ [y]) = 10 * digitsVal xs + y := by
  simp [digitsVal, List.foldl_append]

/-- Reading back the rendered digits of `n` yields `n`. -/
theorem natDecimalGo_val (fuel : Nat) :
    ∀ n, n < fuel →
      digitsVal ((natDecimalGo fuel n []).map (fun c => c.toNat - 48)) = n := by
  induction fuel with
  | zero => intro n h; omega
  | succ f ih =>
    intro n h
    have hd : (Char.ofNat (48 + n % 10)).toNat = 48 + n % 10 :=
      char_toNat_ofNat_lt _ (by omega)
    by_cases h10 : n < 10
    · simp [natDecimalGo, h10, digitsVal, hd]
    · have hlt : n / 10 < f := by omega
      simp only [natDecimalGo, h10, if_false]
      rw [natDecimalGo_append f (n / 10) _ hlt, List.map_append]
      simp only [List.map_cons, List.map_nil]
      rw [digitsVal_append_singleton, ih (n / 10) hlt, hd]
      omega

/-- `takeDigits` splits a digit run off and leaves a non-digit tail. -/
theorem takeDigits_digits_append (ds : List Char)
    (hds : ∀ c ∈ ds, 48 ≤ c.toNat ∧ c.toNat ≤ 57) (tail : List Char)
    (htail : ∀ c, tail.head? = some c → digitVal c = none) :
    takeDigits (ds ++ tail) = (ds.map (fun c => c.toNat - 48), tail) := by
  induction ds with
  | nil =>
    cases tail with
    | nil => rfl
    | cons c cs => simp [takeDigits, htail c rfl]
  | cons c cs ih =>
    have hc := hds c (by simp)
    have hdv : digitVal c = some (c.toNat - 48) := by
      unfold digitVal
      rw [if_pos hc]
    simp [takeDigits, hdv, ih (fun d hd => hds d (by simp [hd]))]

/-- `parseNumber` reads back exactly the rendered digits of `n` when a
non-digit follows. -/
theorem parseNumber_natDecimal (n : Nat) (c : Char) (rest : List Char)
    (hc : digitVal c = none) :
    parseNumber (natDecimalAux n [] ++ c :: rest) = some (n, c :: rest) := by
  have hds := natDecimalAux_digits n
  have htd := takeDigits_digits_append (natDecimalAux n []) hds (c :: rest)
    (fun d hd => by
      simp only [List.head?] at hd
      cases hd
      exact hc)
  unfold parseNumber
  rw [htd]
  cases hmap : (natDecimalAux n []).map (fun c => c.toNat - 48) with
  | nil =>
    exact absurd (List.map_eq_nil_iff.mp hmap) (natDecimalAux_ne_nil n)
  | cons d ds =>
    simp only []
    rw [← hmap]
    unfold natDecimalAux
    rw [natDecimalGo_val (n + 1) n (by omega)]

/-- `takeKey` reads exactly up to the closing quote. -/
theorem takeKey_append (k : List Char) (hk : ∀ c ∈ k, c.toNat ≠ 34)
    (rest : List Char) :
    takeKey (k ++ Char.ofNat 34 :: rest) = some (k, rest) := by
  induction k with
  | nil =>
    have h34 : ((Char.ofNat 34).toNat == 34) = true := by decide
    simp [takeKey, h34]
  | cons c cs ih =>
    have hc : (c.toNat == 34) = false := by simp [hk c (by simp)]
    simp [takeKey, hc, ih (fun d hd => hk d (by simp [hd]))]

/-- Reading the two members the state encoder emits. -/
theorem parse_state_members (f : Nat) (uid ts : Nat) :
    parseMembersAux (f + 1 + 1)
      (Char.ofNat 34 :: ("userId".toList ++ Char.ofNat 34 :: Char.ofNat 58 ::
        (natDecimalAux uid [] ++ Char.ofNat 44 :: Char.ofNat 34 ::
          ("timestamp".toList ++ Char.ofNat 34 :: Char.ofNat 58 ::
            (natDecimalAux ts [] ++ [Char.ofNat 125]))))) =
      some ([("userId", uid), ("timestamp", ts)], []) := by
  have h34 : ((Char.ofNat 34).toNat == 34) = true := by decide
  have e58 : (Char.ofNat 58).toNat = 58 := by decide
  have e44 : (Char.ofNat 44).toNat = 44 := by decide
  have e125t : (Char.ofNat 125).toNat = 125 := by decide
  have e125f : ¬ (Char.ofNat 125).toNat = 44 := by decide
  have hkey := takeKey_append "userId".toList (by decide)
    (Char.ofNat 58 :: (natDecimalAux uid [] ++ Char.ofNat 44 :: Char.ofNat 34 ::
      ("timestamp".toList ++ Char.ofNat 34 :: Char.ofNat 58 ::
        (natDecimalAux ts [] ++ [Char.ofNat 125]))))
  have hnum := parseNumber_natDecimal uid (Char.ofNat 44)
    (Char.ofNat 34 :: ("timestamp".toList ++ Char.ofNat 34 :: Char.ofNat 58 ::
      (natDecimalAux ts [] ++ [Char.ofNat 125]))) (by decide)
  have hkey2 := takeKey_append "timestamp".toList (by decide)
    (Char.ofNat 58 :: (natDecimalAux ts [] ++ [Char.ofNat 125]))
  have hnum2 := parseNumber_natDecimal ts (Char.ofNat 125) [] (by decide)
  simp at hkey hnum hkey2 hnum2
  simp [parseMembersAux, h34, hkey, hnum, hkey2, hnum2, e58, e44, e125t, e125f]

/-- Parsing the state JSON yields exactly the two encoded fields. -/
theorem jsonParse_stateJson (uid ts : Nat) :
    jsonParseFlatObj (stateJson uid ts) =
      some [("userId", uid), ("timestamp", ts)] := by
  have h123 : ((Char.ofNat 123).toNat == 123) = true := by decide
  have hmem := parse_state_members
    (("userId".toList ++ Char.ofNat 34 :: Char.ofNat 58 ::
      (natDecimalAux uid [] ++ Char.ofNat 44 :: Char.ofNat 34 ::
        ("timestamp".toList ++ Char.ofNat 34 :: Char.ofNat 58 ::
          (natDecimalAux ts [] ++ [Char.ofNat 125])))).length) uid ts
  simp at hmem
  simp [jsonParseFlatObj, stateJson, stateJsonChars, toList_mk, h123,
    List.length_cons, hmem]

/-- Every character of the state JSON is a single byte. -/
theorem stateJsonChars_lt256 (uid ts : Nat) :
    ∀ c ∈ stateJsonChars uid ts, c.toNat < 256 := by
  have hdig : ∀ m : Nat, ∀ x ∈ natDecimalAux m [], x.toNat < 256 := by
    intro m x hx
    have := natDecimalAux_digits m x hx
    omega
  intro c hc
  simp only [stateJsonChars, List.mem_cons, List.mem_append,
    List.mem_singleton] at hc
  rcases hc with rfl | rfl | hc | rfl | rfl | hc | rfl | rfl | hc | rfl | rfl
    | hc | rfl | hc
  case _ => decide
  case _ => decide
  case _ => revert c hc; decide
  case _ => decide
  case _ => decide
  case _ => exact hdig uid c hc
  case _ => decide
  case _ => decide
  case _ => revert c hc; decide
  case _ => decide
  case _ => decide
  case _ => exact hdig ts c hc
  case _ => decide
  case _ => simp at hc

/-- Byte round trip on strings. -/
theorem bytesToStr_strBytes (s : String) : bytesToStr (strBytes s) = s := by
  unfold bytesToStr strBytes
  rw [List.map_map,
    show Char.ofNat ∘ Char.toNat = id from funext (fun c => Char.ofNat_toNat c),
    List.map_id]
  cases s
  rfl

/-- Full round trip of the OAuth state: the callback decodes the tenant
the authorize URL encoded, for every nonzero tenant id and timestamp. -/
theorem decodeState_buildAuthState (uid ts : Nat) (h : uid ≠ 0) :
    decodeStateUserId (buildAuthState uid ts) = some uid := by
  have hb : ∀ b ∈ strBytes (stateJson uid ts), b < 256 := by
    intro b hbm
    simp only [strBytes, List.mem_map] at hbm
    obtain ⟨c, hc, rfl⟩ := hbm
    rw [stateJson, toList_mk] at hc
    exact stateJsonChars_lt256 uid ts c hc
  have hrt := base64_roundtrip (strBytes (stateJson uid ts)) hb
  have hts : (("timestamp" : String) == "userId") = false := by decide
  have hui : (("userId" : String) == "userId") = true := by decide
  unfold decodeStateUserId buildAuthState base64EncodeString
  simp only [base64Sextets, toList_mk]
  rw [hrt, bytesToStr_strBytes, jsonParse_stateJson]
  simp [List.lookup, hts, hui, h]

/-- A nonempty string is truthy. -/
theorem truthy_some_of_ne (s : String) (h : s ≠ "") :
    truthy (some s) = true := by
  have : s.isEmpty = false := by
    rw [Bool.eq_false_iff]
    intro he
    exact h ((String.isEmpty_iff s).mp he)
  simp [truthy, this]

/-- Counterexample to claim C5 as stated: for tenantId 0 the generated
state round trip fails — the JS guard `if (!userId)` treats the decoded
0 as missing, the handler throws to the catch-all (500) and persists
nothing, although the state was built for that tenant and code, realm id
and exchange are all valid. -/
theorem claim_C5_zero_tenant_counterexample :
    decodeStateUserId (buildAuthState 0 5) = none ∧
    callbackHandler 0 oracleRotate sampleUsers []
      ⟨some "abc", some "9001", some (buildAuthState 0 5), none⟩ =
      ⟨500, [], 0⟩ := by
  decide

/-- Claim C5 (amended: for every nonzero tenantId): the authorize route
embeds `{userId, timestamp}` into the state parameter of its redirect,
and invoking the callback with that exact generated state plus a valid
code and realm id decodes the same tenantId and persists a credential
whose tenant key equals the one the URL was built for. -/
theorem claim_C5_state_roundtrip (uid ts now : Nat) (code rlm cid csec : String)
    (exchange : String → TokenResponse) (users : List UserRecord)
    (store : TokenStore) (a r : String) (ttl : Nat)
    (huid : uid ≠ 0) (hcode : code ≠ "") (hrlm : rlm ≠ "")
    (hcid : cid ≠ "") (hcsec : csec ≠ "")
    (hex : exchange code = TokenResponse.ok a r ttl) :
    (authHandler (some cid) (some csec) none uid ts).state =
      some (buildAuthState uid ts) ∧
    decodeStateUserId (buildAuthState uid ts) = some uid ∧
    (saveUserTokens now store uid rlm a r ttl).2.user_id = uid ∧
    getUserTokens (callbackHandler now exchange users store
        ⟨some code, some rlm, some (buildAuthState uid ts), none⟩).store uid =
      some (saveUserTokens now store uid rlm a r ttl).2 := by
  have hdec := decodeState_buildAuthState uid ts huid
  have hne : buildAuthState uid ts ≠ "" := by
    intro he
    rw [he] at hdec
    have hnone : decodeStateUserId "" = none := by decide
    rw [hnone] at hdec
    cases hdec
  have hauth : (authHandler (some cid) (some csec) none uid ts).state =
      some (buildAuthState uid ts) := by
    simp [authHandler, truthy_some_of_ne cid hcid, truthy_some_of_ne csec hcsec]
  have hmiss : paramsMissing
      ⟨some code, some rlm, some (buildAuthState uid ts), none⟩ = false := by
    simp [paramsMissing, truthy_some_of_ne code hcode,
      truthy_some_of_ne rlm hrlm, truthy_some_of_ne _ hne]
  have hstore : (callbackHandler now exchange users store
      ⟨some code, some rlm, some (buildAuthState uid ts), none⟩).store =
      (saveUserTokens now store uid rlm a r ttl).1 := by
    cases hu : getUserById users uid <;>
      simp [callbackHandler, callbackHandlerWith, hmiss, hdec, hex, hu, truthy]
  refine ⟨hauth, hdec, (saveUserTokens_fields now store uid rlm a r ttl).1, ?_⟩
  rw [hstore]
  exact getUserTokens_save now store uid rlm a r ttl

/-- Witness for C5 (amended) at tenant 42. -/
theorem claim_C5_state_roundtrip_witness :
    (42 : Nat) ≠ 0 ∧
    ((authHandler (some "CID") (some "SEC") none 42 99).state =
        some (buildAuthState 42 99) ∧
      decodeStateUserId (buildAuthState 42 99) = some 42 ∧
      (saveUserTokens 0 [] 42 "9001" "newAccess" "newRefresh" 3600).2.user_id
        = 42 ∧
      getUserTokens (callbackHandler 0 oracleRotate sampleUsers []
          ⟨some "abc", some "9001", some (buildAuthState 42 99), none⟩).store
          42 =
        some (saveUserTokens 0 [] 42 "9001" "newAccess" "newRefresh" 3600).2) :=
  ⟨by decide,
    claim_C5_state_roundtrip 42 99 0 "abc" "9001" "CID" "SEC" oracleRotate
      sampleUsers [] "newAccess" "newRefresh" 3600 (by decide) (by decide)
      (by decide) (by decide) (by decide) (by decide)⟩
